import Mathlib

/-!
Verification of the event-stream consumer in
`src/job-agent-frontend/src/pages/DashboardPage.jsx` (the variant with i18n
error codes): the frame decoder of the `run` read loop, the event
dispatcher, the stream-session lifecycle (`rozpocznijStream` /
`zakonczStream`), and the job launch gate (`obsluzStartWyszukiwania`).
Text is modelled as `List Char`; the JS platform functions the code calls
(`String.prototype.trim`, `String.prototype.split`, `Number`, `JSON.parse`)
are embedded on the fragment the client exercises.
-/

set_option maxRecDepth 16000

namespace Workfinder

/-- Characters of a string literal; the text representation used throughout. -/
def txt (s : String) : List Char := s.toList

/-- The opening curly bracket character. -/
def lbrace : Char := Char.ofNat 123

/-- The closing curly bracket character. -/
def rbrace : Char := Char.ofNat 125

/-- Whitespace test of JS `String.prototype.trim` (the ASCII fragment). -/
def isJsWs (c : Char) : Bool :=
  c = ' ' || c = '\t' || c = '\n' || c = '\r' || c = '\x0b' || c = '\x0c'

/-- Embedding of JS `String.prototype.trim`: strip all leading and trailing
whitespace. -/
def jsTrim (l : List Char) : List Char :=
  ((l.dropWhile isJsWs).reverse.dropWhile isJsWs).reverse

/-- Embedding of `buffer.split('\n\n')` followed by `buffer = chunks.pop() || ''`
from the read loop: returns the complete parts (in order) and the residual
trailing part that stays in the buffer.  Matching of the separator is
leftmost-first, as in JS `split`. -/
def splitNN : List Char → List (List Char) × List Char
  | [] => ([], [])
  | [c] => ([], [c])
  | c :: d :: rest =>
    if c = '\n' ∧ d = '\n' then
      let p := splitNN rest
      ([] :: p.1, p.2)
    else
      match splitNN (d :: rest) with
      | ([], r) => ([], c :: r)
      | (q :: qs, r) => ((c :: q) :: qs, r)

/-- Embedding of `chunk.split('\n')` (JS split on a single newline; the empty
string yields one empty line, as in JS). -/
def splitLines : List Char → List (List Char)
  | [] => [[]]
  | c :: rest =>
    if c = '\n' then [] :: splitLines rest
    else
      match splitLines rest with
      | [] => [[c]]
      | l :: ls => (c :: l) :: ls

/-- One step of the line-classification loop of `run`: state is
`(eventType, dataLines)`; an `event:`-prefixed line replaces the event type
with `line.slice(6).trim()`, a `data:`-prefixed line appends
`line.slice(5).trim()` to the data lines. -/
def classifyLine (acc : List Char × List (List Char)) (line : List Char) :
    List Char × List (List Char) :=
  if (txt "event:").isPrefixOf line then (jsTrim (line.drop 6), acc.2)
  else if (txt "data:").isPrefixOf line then (acc.1, acc.2 ++ [jsTrim (line.drop 5)])
  else acc

/-- The line-classification loop of `run` over the lines of one chunk,
starting from `eventType = 'message'` and an empty data-line list. -/
def classifyLines (lines : List (List Char)) : List Char × List (List Char) :=
  lines.foldl classifyLine (txt "message", [])

/-- A decoded frame as the read loop computes it before dispatch:
the event type and the data lines joined by `'\n'`. -/
structure FrameR where
  eventType : List Char
  rawData : List Char
deriving DecidableEq

/-- Frame extraction from one complete chunk of the stream: split into lines,
classify, and drop the chunk (`continue`) when it carries no data line;
otherwise the raw data is `dataLines.join('\n')`. -/
def parseChunkFrame (body : List Char) : Option FrameR :=
  let p := classifyLines (splitLines body)
  if p.2 = [] then none
  else some ⟨p.1, List.intercalate (txt "\n") p.2⟩

/-- State of the frame decoder across reads: the residual text buffer and the
frames emitted so far, in order. -/
structure DecState where
  buffer : List Char
  out : List FrameR
deriving DecidableEq

/-- The initial decoder state: empty buffer, nothing emitted. -/
def decInit : DecState := ⟨[], []⟩

/-- One iteration of the read loop for one received text chunk: append to the
buffer, split on the blank-line boundary, keep the trailing remainder, and emit
each complete chunk that carries at least one data line. -/
def feedChunk (st : DecState) (c : List Char) : DecState :=
  let p := splitNN (st.buffer ++ c)
  ⟨p.2, st.out ++ p.1.filterMap parseChunkFrame⟩

/-- The read loop's decoding over a whole sequence of received chunks. -/
def feedChunks (st : DecState) (cs : List (List Char)) : DecState :=
  cs.foldl feedChunk st

/-- A body is a well-formed frame interior when it contains no blank-line
separator and does not end in a newline, so that appending the `'\n\n'`
terminator closes exactly one frame. -/
def bodyOk : List Char → Bool
  | [] => true
  | [c] => decide (c ≠ '\n')
  | c :: d :: rest => (!(c = '\n' && d = '\n')) && bodyOk (d :: rest)

/-- The blank-line frame terminator. -/
def sepNN : List Char := ['\n', '\n']

/-- The wire text of a sequence of frames, each body followed by the
blank-line terminator. -/
def encodeFrames (bodies : List (List Char)) : List Char :=
  (bodies.map (fun b => b ++ sepNN)).flatten

/-- A scalar JSON value as `JSON.parse` can produce it for this client. -/
inductive JsPrim where
  | jnull
  | jbool (b : Bool)
  | jnum (n : Int)
  | jstr (s : List Char)
deriving DecidableEq

/-- A decoded payload value: a scalar or a flat object with scalar members. -/
inductive JsValue where
  | prim (p : JsPrim)
  | jobj (fields : List (List Char × JsPrim))
deriving DecidableEq

/-- Whitespace skipped between JSON tokens. -/
def skipWs (l : List Char) : List Char :=
  l.dropWhile (fun c => c = ' ' || c = '\t' || c = '\n' || c = '\r')

/-- Scan a JSON string-literal body up to the closing quote (escape sequences
are outside the modelled fragment and yield `none`). -/
def scanStr : List Char → Option (List Char × List Char)
  | [] => none
  | c :: rest =>
    if c = '"' then some ([], rest)
    else if c = '\\' then none
    else
      match scanStr rest with
      | none => none
      | some (s, r) => some (c :: s, r)

/-- Numeric value of a run of decimal digits. -/
def digitsVal (l : List Char) : Nat :=
  l.foldl (fun n c => n * 10 + (c.toNat - '0'.toNat)) 0

/-- Parse one scalar JSON token at the head of the input. -/
def parsePrimTok (l : List Char) : Option (JsPrim × List Char) :=
  match l with
  | '"' :: rest =>
    match scanStr rest with
    | none => none
    | some (s, r) => some (.jstr s, r)
  | _ =>
    if (txt "null").isPrefixOf l then some (.jnull, l.drop 4)
    else if (txt "true").isPrefixOf l then some (.jbool true, l.drop 4)
    else if (txt "false").isPrefixOf l then some (.jbool false, l.drop 5)
    else
      match l with
      | '-' :: rest =>
        let ds := rest.takeWhile Char.isDigit
        if ds = [] then none
        else some (.jnum (-(digitsVal ds : Int)), rest.drop ds.length)
      | _ =>
        let ds := l.takeWhile Char.isDigit
        if ds = [] then none
        else some (.jnum (digitsVal ds), l.drop ds.length)

/-- Parse the members of a flat JSON object after the opening brace
(fuel-bounded recursion; the fuel is an upper bound on the member count). -/
def parseMembers : Nat → List Char → Option (List (List Char × JsPrim) × List Char)
  | 0, _ => none
  | fuel + 1, l =>
    match skipWs l with
    | '"' :: rest =>
      match scanStr rest with
      | none => none
      | some (k, r1) =>
        match skipWs r1 with
        | ':' :: r2 =>
          match parsePrimTok (skipWs r2) with
          | none => none
          | some (v, r3) =>
            match skipWs r3 with
            | ',' :: r4 =>
              match parseMembers fuel r4 with
              | none => none
              | some (fs, r5) => some ((k, v) :: fs, r5)
            | c :: r4 =>
              if c = rbrace then some ([(k, v)], r4) else none
            | [] => none
        | _ => none
    | _ => none

/-- Model of the platform `JSON.parse` on the fragment this client's payloads
use: scalars and flat objects with scalar members (no escape sequences, no
nesting, no arrays).  Inputs outside the fragment are treated as unparsable,
which makes the dispatcher fall back to the raw string exactly as a parse
failure does in the source. -/
def parseJsonFlat (l : List Char) : Option JsValue :=
  match skipWs l with
  | c :: rest =>
    if c = lbrace then
      match skipWs rest with
      | d :: tail =>
        if d = rbrace then
          if skipWs tail = [] then some (.jobj []) else none
        else
          match parseMembers (rest.length + 1) rest with
          | none => none
          | some (fs, tail2) => if skipWs tail2 = [] then some (.jobj fs) else none
      | [] => none
    else
      match parsePrimTok (c :: rest) with
      | none => none
      | some (p, tail) => if skipWs tail = [] then some (.prim p) else none
  | [] => none

/-- JS truthiness of a decoded payload value. -/
def truthy : JsValue → Bool
  | .prim .jnull => false
  | .prim (.jbool b) => b
  | .prim (.jnum n) => decide (n ≠ 0)
  | .prim (.jstr s) => decide (s ≠ [])
  | .jobj _ => true

/-- JS truthiness of a scalar member value. -/
def truthyPrim : JsPrim → Bool
  | .jnull => false
  | .jbool b => b
  | .jnum n => decide (n ≠ 0)
  | .jstr s => decide (s ≠ [])

/-- JS member access `parsed.status`: the member of an object, `undefined`
(`none`) on anything else. -/
def getField (v : JsValue) (k : List Char) : Option JsPrim :=
  match v with
  | .prim _ => none
  | .jobj fs =>
    match fs.find? (fun f => f.1 = k) with
    | none => none
    | some f => some f.2

/-- The payload the dispatcher sees: `JSON.parse(rawData)` with fallback to
the raw string when parsing fails (`let parsed = rawData; try ... catch`). -/
def parsedPayload (f : FrameR) : JsValue :=
  (parseJsonFlat f.rawData).getD (.prim (.jstr f.rawData))

/-- The client-visible state of the dashboard component: the auth token read
from storage, the stream controller reference (`streamControllerRef`), a
fresh-id counter and the list of transport handles opened and not yet
aborted, the run state (`status`), the stats snapshot (`statystyki`), the
launch error (`blad`), the stream error (`bladStreamu`), and the log
sequence (`logi`). -/
structure ClientState where
  token : Option (List Char)
  streamController : Option Nat
  nextId : Nat
  openHandles : List Nat
  status : JsPrim
  statystyki : Option JsValue
  blad : Option (List Char)
  bladStreamu : Option (List Char)
  logi : List JsValue
deriving DecidableEq

/-- The component's initial state: `status = 'idle'`, no stats, no errors,
no logs, no stream controller, given the stored token. -/
def stanPoczatkowy (tok : Option (List Char)) : ClientState :=
  ⟨tok, none, 0, [], .jstr (txt "idle"), none, none, none, []⟩

/-- `controller.abort()`: the transport handle of this controller is closed. -/
def abortCtl (ctl : Nat) (st : ClientState) : ClientState :=
  { st with openHandles := st.openHandles.erase ctl }

/-- Event dispatch for one non-terminal frame, as in the read loop of `run`:
`status` with a truthy parsed payload carrying a truthy `status` member
replaces the run state and the stats together; `log` appends the payload to
the log sequence; anything else is ignored. -/
def dispatchFrame (st : ClientState) (f : FrameR) : ClientState :=
  let parsed := parsedPayload f
  if f.eventType = txt "status" then
    match getField parsed (txt "status") with
    | some v =>
      if truthy parsed && truthyPrim v then
        { st with status := v, statystyki := some parsed }
      else st
    | none => st
  else if f.eventType = txt "log" then
    { st with logi := st.logi ++ [parsed] }
  else st

/-- The inner `for`-loop of `run` over the frames decoded from one read:
dispatch each frame in order; a `done` frame aborts the controller and
returns from `run` (the `true` component records that return), regardless of
its payload. -/
def dispatchList (ctl : Nat) : ClientState → List FrameR → ClientState × Bool
  | st, [] => (st, false)
  | st, f :: fs =>
    if f.eventType = txt "done" then (abortCtl ctl st, true)
    else dispatchList ctl (dispatchFrame st f) fs

/-- The `while (true)` read loop of `run`: each read appends its chunk to the
buffer, splits off the complete parts, dispatches their frames, and stops
when a `done` frame returned or the transport input ends. -/
def readLoop (ctl : Nat) : List Char → ClientState → List (List Char) → ClientState
  | _, st, [] => st
  | buf, st, c :: cs =>
    let p := splitNN (buf ++ c)
    match dispatchList ctl st (p.1.filterMap parseChunkFrame) with
    | (st', true) => st'
    | (st', false) => readLoop ctl p.2 st' cs

/-- A whole error-free stream session driven by the given transport reads:
the read loop followed by the `.finally` that clears the stored stream
controller reference. -/
def runSession (ctl : Nat) (st : ClientState) (reads : List (List Char)) : ClientState :=
  { readLoop ctl [] st reads with streamController := none }

/-- How a session's `run()` promise settled: the transport input ended, a
`done` frame returned, or `run` rejected with an error of the given name. -/
inductive RunExit where
  | normalEnd
  | doneFrame
  | errored (name : List Char)
deriving DecidableEq

/-- The `.catch`/`.finally` continuation of `run()`: an `AbortError` is
swallowed, any other rejection sets the stream error `'streamDisconnected'`;
on every path the stored controller reference is cleared and the run state is
left untouched. -/
def finishRun (st : ClientState) (e : RunExit) : ClientState :=
  match e with
  | .errored name =>
    if name = txt "AbortError" then { st with streamController := none }
    else { st with bladStreamu := some (txt "streamDisconnected"),
                   streamController := none }
  | _ => { st with streamController := none }

/-- `rozpocznijStream`: a no-op when a stream controller is already recorded
or no token is stored; otherwise records a fresh controller, clears the
stream error, and issues the single transport request. -/
def rozpocznijStream (s : ClientState) : ClientState :=
  if s.streamController.isSome then s
  else
    match s.token with
    | none => s
    | some _ =>
      { s with streamController := some s.nextId,
               nextId := s.nextId + 1,
               bladStreamu := none,
               openHandles := s.openHandles ++ [s.nextId] }

/-- `zakonczStream`: when a controller is recorded, abort it and clear the
reference; otherwise do nothing. -/
def zakonczStream (s : ClientState) : ClientState :=
  match s.streamController with
  | none => s
  | some c => { s with streamController := none,
                       openHandles := s.openHandles.erase c }

/-- Model of JS `Number` coercion on the integer-literal fragment (optionally
negated decimal digits with surrounding whitespace; the empty string is 0);
`none` models a NaN result, e.g. `Number("abc")`, which `Number.isFinite`
rejects. -/
def jsNumber (l : List Char) : Option Int :=
  match jsTrim l with
  | [] => some 0
  | '-' :: rest =>
    if rest ≠ [] ∧ rest.all Char.isDigit then some (-(digitsVal rest : Int))
    else none
  | t =>
    if t.all Char.isDigit then some (digitsVal t) else none

/-- The launch check `Number.isFinite(n) && !(n < 1) && !(n > 100)` for the
results limit and the max-applications bound. -/
def limitWZakresie (n : Option Int) : Bool :=
  match n with
  | none => false
  | some v => decide (1 ≤ v) && decide (v ≤ 100)

/-- The form fields and profile data the launch handler reads. -/
structure FormInputs where
  specjalizacja : List Char
  doswiadczenie : List Char
  lokalizacja : List Char
  limit : List Char
  maxAplikacji : List Char
  pelneImie : List Char
  preferencje : List Char
  resumeFilename : Option (List Char)
deriving DecidableEq

/-- The body of the start-job request `rozpocznijWyszukiwanie` receives. -/
structure StartRequest where
  specialization : List Char
  experience_level : Option (List Char)
  location : Option (List Char)
  limit : Int
  max_apply : Int
  full_name : List Char
  user_request : Option (List Char)
deriving DecidableEq

/-- What the launch gate decides: a stable error code with no network
request, or the validated request body. -/
inductive GateOutcome where
  | error (code : List Char)
  | request (r : StartRequest)
deriving DecidableEq

/-- The validation chain of `obsluzStartWyszukiwania`, in source order:
trimmed specialization and full name non-empty, a resume filename on file
(a falsy filename fails), then the two numeric range checks; on success the
request body is assembled exactly as the source does. -/
def walidujStart (f : FormInputs) : GateOutcome :=
  let specTrim := jsTrim f.specjalizacja
  let nameTrim := jsTrim f.pelneImie
  let limitNum := jsNumber f.limit
  let maxApplyNum := jsNumber f.maxAplikacji
  if specTrim = [] then .error (txt "errorSpecializationRequired")
  else if nameTrim = [] then .error (txt "errorFullNameRequired")
  else if f.resumeFilename.getD [] = [] then .error (txt "errorResumeMissing")
  else if !limitWZakresie limitNum then .error (txt "errorLimit")
  else if !limitWZakresie maxApplyNum then .error (txt "errorMaxApply")
  else .request
    { specialization := specTrim
      experience_level := if f.doswiadczenie = [] then none else some f.doswiadczenie
      location := if jsTrim f.lokalizacja = [] then none else some (jsTrim f.lokalizacja)
      limit := limitNum.getD 0
      max_apply := maxApplyNum.getD 0
      full_name := nameTrim
      user_request := if f.preferencje = [] then none else some f.preferencje }

/-- The launch handler `obsluzStartWyszukiwania`: clear both errors and the
log sequence, validate, and either record the error code, or submit and — on
submission success (`serverOk`) — flip the run state to `'running'`; a failed
submission records `'errorStartSearch'`.  The second component is the request
that was sent, `none` when validation rejected. -/
def obsluzStartWyszukiwania (serverOk : Bool) (f : FormInputs) (s : ClientState) :
    ClientState × Option StartRequest :=
  let s1 := { s with blad := none, bladStreamu := none, logi := ([] : List JsValue) }
  match walidujStart f with
  | .error c => ({ s1 with blad := some c }, none)
  | .request r =>
    if serverOk then ({ s1 with status := .jstr (txt "running") }, some r)
    else ({ s1 with blad := some (txt "errorStartSearch") }, some r)

/-- The data-line value transformation exactly as claim C8's sentence
describes it (stated from the spec's words for comparison with the source,
which it does not follow): after the `data:` prefix, strip exactly one
leading space separator and preserve all remaining whitespace. -/
def specDataValue (line : List Char) : List Char :=
  match line.drop 5 with
  | ' ' :: rest => rest
  | other => other

/-- A base form whose non-limit fields all pass validation, used to probe the
limit check in isolation. -/
def formularzBazowy (lim : List Char) : FormInputs :=
  { specjalizacja := txt "python"
    doswiadczenie := []
    lokalizacja := []
    limit := lim
    maxAplikacji := txt "3"
    pelneImie := txt "Jan Kowalski"
    preferencje := []
    resumeFilename := some (txt "cv.pdf") }

/-- When the split finds no separator, the residual is the whole input. -/
theorem splitNN_residual (x : List Char) (h : (splitNN x).1 = []) :
    (splitNN x).2 = x := by
  induction x using splitNN.induct with
  | case1 => rfl
  | case2 c => rfl
  | case3 c d rest hcd ih =>
    simp only [splitNN, if_pos hcd] at h
    simp at h
  | case4 c d rest hcd r heq ih =>
    have hr : r = d :: rest := by
      have h2 := ih (by rw [heq])
      rw [heq] at h2
      exact h2
    simp only [splitNN, if_neg hcd, heq, hr]
  | case5 c d rest hcd q qs r heq ih =>
    simp only [splitNN, if_neg hcd, heq] at h
    simp at h

/-- Leftmost splitting on the blank-line separator is compositional:
splitting `a ++ b` first exhausts `a` and then continues from `a`'s residual
prefixed to `b`. -/
theorem splitNN_append (a b : List Char) :
    splitNN (a ++ b) =
      ((splitNN a).1 ++ (splitNN ((splitNN a).2 ++ b)).1,
       (splitNN ((splitNN a).2 ++ b)).2) := by
  induction a using splitNN.induct with
  | case1 => simp [splitNN]
  | case2 c => simp [splitNN]
  | case3 c d rest hcd ih =>
    obtain ⟨hc, hd⟩ := hcd
    subst hc; subst hd
    simp only [List.cons_append, splitNN, if_pos (And.intro rfl rfl)]
    simp only [List.cons_append] at ih
    simp [ih]
  | case4 c d rest hcd r heq ih =>
    have hr : r = d :: rest := by
      have h2 := splitNN_residual (d :: rest) (by rw [heq])
      rw [heq] at h2
      exact h2
    simp only [splitNN, if_neg hcd, heq, hr]
    simp
  | case5 c d rest hcd q qs r heq ih =>
    simp only [List.cons_append] at ih ⊢
    rw [heq] at ih
    conv_lhs => rw [splitNN]
    rw [if_neg hcd, ih]
    conv_rhs => rw [splitNN]
    rw [if_neg hcd, heq]
    simp

/-- A well-formed body followed by the terminator splits off as exactly one
complete part. -/
theorem splitNN_body_sep (b t : List Char) (hb : bodyOk b = true) :
    splitNN (b ++ '\n' :: '\n' :: t) = (b :: (splitNN t).1, (splitNN t).2) := by
  induction b using bodyOk.induct with
  | case1 =>
    simp [splitNN]
  | case2 c =>
    simp only [bodyOk, decide_eq_true_eq] at hb
    simp [splitNN, hb]
  | case3 c d rest ih =>
    simp only [bodyOk, Bool.and_eq_true, Bool.not_eq_true', decide_eq_false_iff_not] at hb
    have hcd : ¬(c = '\n' ∧ d = '\n') := by
      intro hx
      have := hb.1
      simp [hx.1, hx.2] at this
    have ih2 := ih hb.2
    simp only [List.cons_append] at ih2 ⊢
    conv_lhs => rw [splitNN]
    rw [if_neg hcd, ih2]

/-- The wire text of well-formed frames splits into exactly those bodies with
an empty residual. -/
theorem splitNN_encodeFrames (bodies : List (List Char))
    (h : ∀ b ∈ bodies, bodyOk b = true) :
    splitNN (encodeFrames bodies) = (bodies, []) := by
  induction bodies with
  | nil => rfl
  | cons b bs ih =>
    have hb := h b (by simp)
    have ihs := ih (fun x hx => h x (by simp [hx]))
    simp only [encodeFrames, List.map_cons, List.flatten_cons, List.append_assoc]
    have hsep : sepNN ++ (List.map (fun b => b ++ sepNN) bs).flatten =
        '\n' :: '\n' :: (List.map (fun b => b ++ sepNN) bs).flatten := rfl
    rw [hsep, splitNN_body_sep _ _ hb]
    simp only [encodeFrames] at ihs
    rw [ihs]

/-- Decoding two consecutive reads is the same as decoding their
concatenation in one read. -/
theorem feedChunk_append (st : DecState) (a b : List Char) :
    feedChunk (feedChunk st a) b = feedChunk st (a ++ b) := by
  simp only [feedChunk]
  have h := splitNN_append (st.buffer ++ a) b
  rw [← List.append_assoc] at *
  rw [h]
  simp [List.filterMap_append, List.append_assoc]

/-- Decoding a sequence of reads after one read is decoding one big read. -/
theorem feedChunks_flatten (st : DecState) (c : List Char) (cs : List (List Char)) :
    feedChunks (feedChunk st c) cs = feedChunk st (c ++ cs.flatten) := by
  induction cs generalizing c with
  | nil => simp [feedChunks]
  | cons d cs ih =>
    simp only [feedChunks, List.foldl_cons, List.flatten_cons] at *
    rw [feedChunk_append, ih, List.append_assoc]

/-- From the initial state, any chunking decodes like the single full text. -/
theorem feedChunks_eq_single (cs : List (List Char)) :
    feedChunks decInit cs = feedChunk decInit cs.flatten := by
  cases cs with
  | nil => rfl
  | cons c cs =>
    simp only [feedChunks, List.foldl_cons, List.flatten_cons]
    exact feedChunks_flatten decInit c cs

/-- `filterMap` keeps the length when the function succeeds everywhere. -/
theorem length_filterMap_all_some {α β : Type} (f : α → Option β) (l : List α)
    (h : ∀ x ∈ l, (f x).isSome) : (l.filterMap f).length = l.length := by
  induction l with
  | nil => rfl
  | cons x xs ih =>
    have hx := h x (by simp)
    obtain ⟨y, hy⟩ := Option.isSome_iff_exists.mp hx
    simp [List.filterMap_cons, hy, ih (fun z hz => h z (by simp [hz]))]

/-- The inner frame loop over an appended list: an early `done` return in the
first part short-circuits, otherwise the second part continues from the
reached state. -/
theorem dispatchList_append (ctl : Nat) (st : ClientState) (xs ys : List FrameR) :
    dispatchList ctl st (xs ++ ys) =
      match dispatchList ctl st xs with
      | (st', true) => (st', true)
      | (st', false) => dispatchList ctl st' ys := by
  induction xs generalizing st with
  | nil => simp [dispatchList]
  | cons f fs ih =>
    by_cases h : f.eventType = txt "done" <;>
      simp [dispatchList, h, ih]

/-- Two consecutive reads drive the read loop exactly like their
concatenation in a single read. -/
theorem readLoop_merge (ctl : Nat) (buf : List Char) (st : ClientState)
    (c1 c2 : List Char) (cs : List (List Char)) :
    readLoop ctl buf st (c1 :: c2 :: cs) = readLoop ctl buf st ((c1 ++ c2) :: cs) := by
  simp only [readLoop]
  rw [← List.append_assoc, splitNN_append (buf ++ c1) c2, List.filterMap_append,
    dispatchList_append]
  rcases h1 : dispatchList ctl st ((splitNN (buf ++ c1)).1.filterMap parseChunkFrame)
    with ⟨st1, b1⟩
  cases b1 with
  | true => rfl
  | false =>
    rcases h2 : dispatchList ctl st1
        ((splitNN ((splitNN (buf ++ c1)).2 ++ c2)).1.filterMap parseChunkFrame)
      with ⟨st2, b2⟩
    cases b2 <;> rfl

/-- Any non-empty sequence of reads drives the read loop exactly like the
single read of the whole received text. -/
theorem readLoop_flatten (ctl : Nat) (st : ClientState) (c : List Char)
    (cs : List (List Char)) :
    readLoop ctl [] st (c :: cs) = readLoop ctl [] st [(c :: cs).flatten] := by
  induction cs generalizing c with
  | nil => simp
  | cons d cs ih =>
    rw [readLoop_merge, ih (c ++ d)]
    simp [List.append_assoc]

/-- The read loop on a single read stops in the state the frame loop
reaches, whether or not a `done` frame returned. -/
theorem readLoop_single (ctl : Nat) (st : ClientState) (s : List Char) :
    readLoop ctl [] st [s] =
      (dispatchList ctl st ((splitNN s).1.filterMap parseChunkFrame)).1 := by
  simp only [readLoop, List.nil_append]
  rcases h : dispatchList ctl st ((splitNN s).1.filterMap parseChunkFrame) with ⟨st', b⟩
  cases b with
  | true => simp [h]
  | false => simp [h, readLoop]

/-- The frame loop on frames split around the first `done`: the `done`-free
prefix is dispatched in order, then the `done` frame aborts and returns; the
suffix is unreachable. -/
theorem dispatchList_until_done (ctl : Nat) (st : ClientState) (bs : List FrameR)
    (d : FrameR) (rest : List FrameR) (hd : d.eventType = txt "done")
    (hbs : ∀ f ∈ bs, f.eventType ≠ txt "done") :
    dispatchList ctl st (bs ++ d :: rest) =
      (abortCtl ctl (bs.foldl dispatchFrame st), true) := by
  induction bs generalizing st with
  | nil => simp [dispatchList, hd]
  | cons f fs ih =>
    have hf := hbs f (by simp)
    simp only [List.cons_append, dispatchList, if_neg hf, List.foldl_cons]
    exact ih (dispatchFrame st f) (fun g hg => hbs g (by simp [hg]))

/-- Claim C1: for every finite sequence of well-formed frames and every way
of splitting the concatenated wire text into chunks, the read loop's frame
decoder emits exactly one decoded frame per well-formed frame, in the
original order and with the content computed from that frame alone — the
output is independent of the chunk boundaries, no frame is dropped or
reordered, and the buffer is fully consumed. -/
theorem chunking_independence (bodies : List (List Char))
    (hwf : ∀ b ∈ bodies, bodyOk b = true ∧ (parseChunkFrame b).isSome)
    (cs : List (List Char)) (hcs : cs.flatten = encodeFrames bodies) :
    (feedChunks decInit cs).out = bodies.filterMap parseChunkFrame ∧
    (feedChunks decInit cs).out.length = bodies.length ∧
    (feedChunks decInit cs).buffer = [] := by
  rw [feedChunks_eq_single, hcs]
  simp only [feedChunk, decInit, List.nil_append]
  rw [splitNN_encodeFrames bodies (fun b hb => (hwf b hb).1)]
  refine ⟨rfl, ?_, rfl⟩
  exact length_filterMap_all_some _ _ (fun b hb => (hwf b hb).2)

/-- Witness for C1 at a concrete two-frame stream cut at chunk boundaries
that split a frame mid-line. -/
theorem chunking_independence_witness :
    (∀ b ∈ [txt "event: status\ndata: ok", txt "event: log\ndata: hi"],
      bodyOk b = true ∧ (parseChunkFrame b).isSome) ∧
    ([txt "event: sta", txt "tus\ndata: ok\n\nevent: log\nda", txt "ta: hi\n\n"].flatten
      = encodeFrames [txt "event: status\ndata: ok", txt "event: log\ndata: hi"]) ∧
    (feedChunks decInit
        [txt "event: sta", txt "tus\ndata: ok\n\nevent: log\nda", txt "ta: hi\n\n"]).out
      = [txt "event: status\ndata: ok", txt "event: log\ndata: hi"].filterMap
          parseChunkFrame := by
  refine ⟨by decide, by decide, ?_⟩
  exact (chunking_independence
    [txt "event: status\ndata: ok", txt "event: log\ndata: hi"] (by decide)
    [txt "event: sta", txt "tus\ndata: ok\n\nevent: log\nda", txt "ta: hi\n\n"]
    (by decide)).1

/-- Claim C2: once a `done` frame is dispatched in a session — whatever its
payload — processing terminates: for any chunking whose decoded frame
sequence is a `done`-free prefix, a `done` frame, and an arbitrary suffix,
the whole session ends in the state reached by dispatching the prefix alone,
with the controller aborted and the stored reference cleared; no frame after
the `done` frame is dispatched and no further run-state, stats or log
mutation occurs. -/
theorem done_frame_terminates (s : ClientState) (ctl : Nat)
    (reads : List (List Char)) (bs : List FrameR) (d : FrameR) (rest : List FrameR)
    (hdec : ((splitNN reads.flatten).1).filterMap parseChunkFrame = bs ++ d :: rest)
    (hd : d.eventType = txt "done")
    (hbs : ∀ f ∈ bs, f.eventType ≠ txt "done") :
    runSession ctl s reads =
      { abortCtl ctl (bs.foldl dispatchFrame s) with streamController := none } := by
  cases reads with
  | nil =>
    simp only [List.flatten_nil] at hdec
    simp only [show splitNN [] = ([], []) from rfl, List.filterMap_nil] at hdec
    exact absurd hdec.symm (List.append_ne_nil_of_right_ne_nil _ (by simp))
  | cons c cs =>
    unfold runSession
    rw [readLoop_flatten, readLoop_single, hdec,
      dispatchList_until_done ctl s bs d rest hd hbs]

/-- Witness for C2: a concrete session whose stream carries a `log` frame, a
`done` frame, and a trailing `log` frame, delivered in two reads cut inside
the `done` frame. -/
theorem done_frame_terminates_witness :
    (((splitNN ([txt "event: log\ndata: a\n\nevent: done\nda",
          txt "ta: x\n\nevent: log\ndata: b\n\n"].flatten)).1).filterMap parseChunkFrame
      = [(⟨txt "log", txt "a"⟩ : FrameR)] ++
          (⟨txt "done", txt "x"⟩ : FrameR) :: [(⟨txt "log", txt "b"⟩ : FrameR)]) ∧
    runSession 0 (rozpocznijStream (stanPoczatkowy (some (txt "t"))))
        [txt "event: log\ndata: a\n\nevent: done\nda", txt "ta: x\n\nevent: log\ndata: b\n\n"]
      = { abortCtl 0
            ([(⟨txt "log", txt "a"⟩ : FrameR)].foldl dispatchFrame
              (rozpocznijStream (stanPoczatkowy (some (txt "t")))))
          with streamController := none } := by
  refine ⟨by decide, ?_⟩
  exact done_frame_terminates (rozpocznijStream (stanPoczatkowy (some (txt "t")))) 0
    [txt "event: log\ndata: a\n\nevent: done\nda", txt "ta: x\n\nevent: log\ndata: b\n\n"]
    [(⟨txt "log", txt "a"⟩ : FrameR)] (⟨txt "done", txt "x"⟩ : FrameR)
    [(⟨txt "log", txt "b"⟩ : FrameR)] (by decide) (by decide) (by decide)

/-- Claim C3: at most one stream per client — `rozpocznijStream` is a no-op
when a controller is already recorded, starting is idempotent, and two
successive starts from an idle authenticated state open exactly one
transport handle. -/
theorem rozpocznijStream_single_flight (s : ClientState) :
    (s.streamController.isSome = true → rozpocznijStream s = s) ∧
    rozpocznijStream (rozpocznijStream s) = rozpocznijStream s ∧
    (s.streamController = none → s.openHandles = [] → s.token.isSome = true →
      (rozpocznijStream (rozpocznijStream s)).openHandles.length = 1 ∧
      (rozpocznijStream (rozpocznijStream s)).streamController.isSome = true) := by
  refine ⟨?_, ?_, ?_⟩
  · intro h
    simp [rozpocznijStream, h]
  · by_cases h : s.streamController.isSome
    · simp [rozpocznijStream, h]
    · cases ht : s.token with
      | none => simp [rozpocznijStream, h, ht]
      | some t => simp [rozpocznijStream, h, ht]
  · intro h1 h2 h3
    cases ht : s.token with
    | none => rw [ht] at h3; simp at h3
    | some t => simp [rozpocznijStream, h1, ht, h2]

/-- Witness for C3 at a held-controller state and at the idle initial state. -/
theorem rozpocznijStream_single_flight_witness :
    rozpocznijStream { stanPoczatkowy (some (txt "t")) with streamController := some 7 }
      = { stanPoczatkowy (some (txt "t")) with streamController := some 7 } ∧
    (rozpocznijStream (rozpocznijStream (stanPoczatkowy (some (txt "t"))))).openHandles.length
      = 1 :=
  ⟨(rozpocznijStream_single_flight _).1 rfl,
   ((rozpocznijStream_single_flight (stanPoczatkowy (some (txt "t")))).2.2
      rfl rfl rfl).1⟩

/-- Claim C4: a transport failure of an open session that is not an
`AbortError` sets the stream error `'streamDisconnected'` while the run
state and stats keep their last values; an `AbortError` raised by an
explicit stop is not reported at all. -/
theorem stream_error_handling (s : ClientState) (name : List Char) :
    (finishRun s (.errored name)).status = s.status ∧
    (finishRun s (.errored name)).statystyki = s.statystyki ∧
    (name ≠ txt "AbortError" →
      (finishRun s (.errored name)).bladStreamu = some (txt "streamDisconnected")) ∧
    (name = txt "AbortError" →
      (finishRun s (.errored name)).bladStreamu = s.bladStreamu) := by
  by_cases h : name = txt "AbortError" <;> simp [finishRun, h]

/-- Witness for C4 at a generic transport error and at an abort. -/
theorem stream_error_handling_witness :
    (finishRun (stanPoczatkowy none) (.errored (txt "TypeError"))).bladStreamu
      = some (txt "streamDisconnected") ∧
    (finishRun (stanPoczatkowy none) (.errored (txt "AbortError"))).bladStreamu
      = (stanPoczatkowy none).bladStreamu :=
  ⟨(stream_error_handling (stanPoczatkowy none) (txt "TypeError")).2.2.1 (by decide),
   (stream_error_handling (stanPoczatkowy none) (txt "AbortError")).2.2.2 rfl⟩

/-- Claim C5: on every termination path — normal end of input, `done` frame,
transport error of any name, or explicit stop — the stored stream controller
reference ends up cleared, so no transport handle reference survives the
session. -/
theorem handle_released_on_every_exit (s : ClientState) (e : RunExit)
    (ctl : Nat) (reads : List (List Char)) :
    (finishRun s e).streamController = none ∧
    (runSession ctl s reads).streamController = none ∧
    (zakonczStream s).streamController = none := by
  refine ⟨?_, rfl, ?_⟩
  · cases e with
    | errored name => by_cases h : name = txt "AbortError" <;> simp [finishRun, h]
    | normalEnd => rfl
    | doneFrame => rfl
  · cases h : s.streamController with
    | none => simp [zakonczStream, h]
    | some c => simp [zakonczStream, h]

/-- Claim C9: stopping is idempotent — `zakonczStream` with no open session
is a no-op, a second stop equals the first, and after a stop the controller
reference is always cleared; the operation is total, so it never raises. -/
theorem zakonczStream_idempotent (s : ClientState) :
    zakonczStream (zakonczStream s) = zakonczStream s ∧
    (zakonczStream s).streamController = none ∧
    (s.streamController = none → zakonczStream s = s) := by
  cases h : s.streamController with
  | none => simp [zakonczStream, h]
  | some c =>
    refine ⟨?_, ?_, ?_⟩
    · simp [zakonczStream, h]
    · simp [zakonczStream, h]
    · intro h2
      exact absurd h2 (by simp)

/-- Witness for C9 at the idle initial state. -/
theorem zakonczStream_idempotent_witness :
    zakonczStream (stanPoczatkowy none) = stanPoczatkowy none :=
  (zakonczStream_idempotent (stanPoczatkowy none)).2.2 rfl

/-- Claim C6: feeding the decoder the two fragments of a `status` frame cut
inside the JSON payload yields exactly one frame with event type `status`
whose payload parses to the structured object with member `status` equal to
`"running"`; the first fragment alone yields no frame. -/
theorem two_fragment_decode :
    (feedChunks decInit
        [txt "event: status\ndata: \x7b\"sta", txt "tus\":\"running\"\x7d\n\n"]).out
      = [⟨txt "status", txt "\x7b\"status\":\"running\"\x7d"⟩] ∧
    parsedPayload ⟨txt "status", txt "\x7b\"status\":\"running\"\x7d"⟩
      = .jobj [(txt "status", .jstr (txt "running"))] ∧
    (feedChunks decInit [txt "event: status\ndata: \x7b\"sta"]).out = [] := by
  decide

/-- A `data:` line is never also an `event:` line: the prefixes differ at
their first character. -/
theorem data_prefix_not_event (l : List Char)
    (h : (txt "data:").isPrefixOf l = true) :
    ¬ (txt "event:").isPrefixOf l = true := by
  intro he
  rw [List.isPrefixOf_iff_prefix] at h he
  obtain ⟨t1, ht1⟩ := h
  obtain ⟨t2, ht2⟩ := he
  rw [show txt "data:" = 'd' :: txt "ata:" from rfl] at ht1
  rw [show txt "event:" = 'e' :: txt "vent:" from rfl] at ht2
  rw [← ht1] at ht2
  simp only [List.cons_append] at ht2
  have hc : ('e' : Char) = 'd' := by injection ht2
  exact absurd hc (by decide)

/-- The classification loop accumulates, from any starting state, exactly the
fully trimmed `slice(5)` values of the `data:`-prefixed lines, in order. -/
theorem classify_data_accum (lines : List (List Char)) (et : List Char)
    (dls : List (List Char)) :
    (lines.foldl classifyLine (et, dls)).2 =
      dls ++ (lines.filter (fun l => (txt "data:").isPrefixOf l)).map
        (fun l => jsTrim (l.drop 5)) := by
  induction lines generalizing et dls with
  | nil => simp
  | cons l ls ih =>
    by_cases hd : (txt "data:").isPrefixOf l
    · have he := data_prefix_not_event l hd
      simp [classifyLine, he, hd, ih, List.filter_cons]
    · by_cases hev : (txt "event:").isPrefixOf l <;>
        simp [classifyLine, hev, hd, ih, List.filter_cons]

/-- Claim C8 as stated is false at the line `'data:  x '`: the source applies
a full trim to the value after the `data:` prefix, producing `'x'`, while a
trim of a single leading separator would preserve the remaining leading and
trailing whitespace and produce `' x '`. -/
theorem single_space_trim_counterexample :
    parseChunkFrame (txt "data:  x ") = some ⟨txt "message", txt "x"⟩ ∧
    specDataValue (txt "data:  x ") = txt " x " ∧
    txt "x" ≠ txt " x " := by
  decide

/-- Claim C8, amended: every `data:`-prefixed line contributes the value
`line.slice(5)` with ALL leading and trailing whitespace removed (a full JS
trim), so further leading whitespace and trailing whitespace of the value
are NOT preserved; the data-line list is exactly these trimmed values in
input order. -/
theorem data_values_fully_trimmed (lines : List (List Char)) :
    (classifyLines lines).2 =
      (lines.filter (fun l => (txt "data:").isPrefixOf l)).map
        (fun l => jsTrim (l.drop 5)) := by
  unfold classifyLines
  rw [classify_data_accum]
  simp

/-- Claim C7: with all other fields valid, the launch gate rejects results
limits `0`, `101` and `"abc"` with the single code `errorLimit` and issues
no start request for them, accepts `1` and `100`, and any input that reaches
a request parses as a finite number in `[1, 100]` which is the submitted
limit. -/
theorem launch_gate_limit_range :
    walidujStart (formularzBazowy (txt "0")) = .error (txt "errorLimit") ∧
    walidujStart (formularzBazowy (txt "101")) = .error (txt "errorLimit") ∧
    walidujStart (formularzBazowy (txt "abc")) = .error (txt "errorLimit") ∧
    (∃ r, walidujStart (formularzBazowy (txt "1")) = .request r ∧ r.limit = 1) ∧
    (∃ r, walidujStart (formularzBazowy (txt "100")) = .request r ∧ r.limit = 100) ∧
    (∀ (ok : Bool) (s : ClientState),
      (obsluzStartWyszukiwania ok (formularzBazowy (txt "0")) s).2 = none ∧
      (obsluzStartWyszukiwania ok (formularzBazowy (txt "101")) s).2 = none ∧
      (obsluzStartWyszukiwania ok (formularzBazowy (txt "abc")) s).2 = none) ∧
    (∀ (f : FormInputs) (r : StartRequest), walidujStart f = .request r →
      ∃ n : Int, jsNumber f.limit = some n ∧ 1 ≤ n ∧ n ≤ 100 ∧ r.limit = n) := by
  refine ⟨by decide, by decide, by decide,
    ⟨⟨txt "python", none, none, 1, 3, txt "Jan Kowalski", none⟩, by decide, rfl⟩,
    ⟨⟨txt "python", none, none, 100, 3, txt "Jan Kowalski", none⟩, by decide, rfl⟩,
    ?_, ?_⟩
  · intro ok s
    refine ⟨?_, ?_, ?_⟩ <;>
      simp [obsluzStartWyszukiwania,
        show walidujStart (formularzBazowy (txt "0")) = .error (txt "errorLimit")
          from by decide,
        show walidujStart (formularzBazowy (txt "101")) = .error (txt "errorLimit")
          from by decide,
        show walidujStart (formularzBazowy (txt "abc")) = .error (txt "errorLimit")
          from by decide]
  · intro f r h
    by_cases h1 : jsTrim f.specjalizacja = []
    · simp [walidujStart, h1] at h
    by_cases h2 : jsTrim f.pelneImie = []
    · simp [walidujStart, h1, h2] at h
    by_cases h3 : f.resumeFilename.getD [] = []
    · simp [walidujStart, h1, h2, h3] at h
    by_cases h4 : limitWZakresie (jsNumber f.limit) = true
    case neg => simp [walidujStart, h1, h2, h3, h4] at h
    by_cases h5 : limitWZakresie (jsNumber f.maxAplikacji) = true
    case neg => simp [walidujStart, h1, h2, h3, h4, h5] at h
    simp only [walidujStart, if_neg h1, if_neg h2, if_neg h3, h4, h5,
      Bool.not_true, Bool.false_eq_true, if_neg, if_false,
      GateOutcome.request.injEq] at h
    cases hn : jsNumber f.limit with
    | none => rw [hn] at h4; exact absurd h4 (by simp [limitWZakresie])
    | some n =>
      rw [hn] at h4
      simp only [limitWZakresie, Bool.and_eq_true, decide_eq_true_eq] at h4
      refine ⟨n, rfl, h4.1, h4.2, ?_⟩
      rw [← h]
      simp [hn]

/-- Witness for C7's universally quantified clause at the default limit 20. -/
theorem launch_gate_limit_range_witness :
    ∃ n : Int, jsNumber (formularzBazowy (txt "20")).limit = some n ∧
      1 ≤ n ∧ n ≤ 100 ∧
      (⟨txt "python", none, none, 20, 3, txt "Jan Kowalski", none⟩ : StartRequest).limit
        = n :=
  launch_gate_limit_range.2.2.2.2.2.2 (formularzBazowy (txt "20"))
    ⟨txt "python", none, none, 20, 3, txt "Jan Kowalski", none⟩ (by decide)

/-- Claim C10: every invocation of the launch handler clears the log
sequence — including an attempt rejected by local validation, which issues
no request and leaves the run state and the stream controller untouched. -/
theorem launch_clears_logs (ok : Bool) (f : FormInputs) (s : ClientState) :
    (obsluzStartWyszukiwania ok f s).1.logi = [] ∧
    (∀ c, walidujStart f = .error c →
      (obsluzStartWyszukiwania ok f s).2 = none ∧
      (obsluzStartWyszukiwania ok f s).1.status = s.status ∧
      (obsluzStartWyszukiwania ok f s).1.streamController = s.streamController) := by
  constructor
  · rcases h : walidujStart f with c | r
    · simp [obsluzStartWyszukiwania, h]
    · cases ok <;> simp [obsluzStartWyszukiwania, h]
  · intro c hc
    simp [obsluzStartWyszukiwania, hc]

/-- Witness for C10: a rejected launch (empty specialization) from a state
holding logs of a previous session erases them and changes nothing else. -/
theorem launch_clears_logs_witness :
    (obsluzStartWyszukiwania true
        { formularzBazowy (txt "20") with specjalizacja := [] }
        { stanPoczatkowy (some (txt "t")) with
            logi := [JsValue.prim (.jstr (txt "old"))] }).1.logi = [] ∧
    (obsluzStartWyszukiwania true
        { formularzBazowy (txt "20") with specjalizacja := [] }
        { stanPoczatkowy (some (txt "t")) with
            logi := [JsValue.prim (.jstr (txt "old"))] }).2 = none :=
  ⟨(launch_clears_logs true _ _).1,
   ((launch_clears_logs true
      { formularzBazowy (txt "20") with specjalizacja := [] }
      { stanPoczatkowy (some (txt "t")) with
          logi := [JsValue.prim (.jstr (txt "old"))] }).2
     (txt "errorSpecializationRequired") (by decide)).1⟩

end Workfinder
